import Mathlib

/-!
# ADMC: policy console and object context menu

A shallow embedding of `src/admc/console_types/console_policy.cpp` and
`src/admc/object_context_menu.cpp`.

* Qt values are modelled by what the source observes of them: a `QVariant` by
  the results of `toInt()` and `toString()`, a model index by the data it holds
  under the roles the source reads.
* The directory connection (`AdInterface`) is an explicit state of type `σ`
  threaded through the calls; every call that leaves the function (directory
  request, console update, busy indicator) is appended to a log of `Effect`s.
* Declarations the two files use but do not define (`AdInterface`, `AdObject`,
  the `ATTRIBUTE_*` / `CLASS_*` strings, the enumerator values of `ItemType`,
  `console_object_is_ou`) are parameters of the embedding.
* `Gplink` (`gplink.h`) is not among the sources at hand; `console_policy_add_link`
  takes its three operations as a parameter, and a concrete codec is modelled
  from the specification for the statements that are about the codec itself.
-/

namespace Admc

/-! ## Qt values -/

/-- A `QVariant`, modelled by the results of the two conversions the source
applies to one. -/
structure QVariant where
  toInt : Int
  toString : String
deriving DecidableEq, Repr

/-- The item-data roles the two source files read or write. -/
inductive ItemRole
  | ConsoleRole_Type
  | PolicyRole_DN
  | ObjectRole_DN
deriving DecidableEq, Repr

/-- A `QModelIndex` / `QPersistentModelIndex`: the row it points at and the data
stored under each of the three roles. -/
structure QModelIndex where
  row : Nat
  type_data : QVariant
  policy_dn_data : QVariant
  object_dn_data : QVariant
deriving DecidableEq, Repr

/-- The call `index.data(role)`. -/
def QModelIndex.data (index : QModelIndex) : ItemRole → QVariant
  | .ConsoleRole_Type => index.type_data
  | .PolicyRole_DN => index.policy_dn_data
  | .ObjectRole_DN => index.object_dn_data

/-- A `QPoint`. -/
structure QPoint where
  x : Int
  y : Int
deriving DecidableEq, Repr

/-- A `QHash<QString, T>` as an association list. -/
abbrev QHash (ν : Type) := List (String × ν)

/-- The call `hash[key]` on a `const QHash`: the stored value, or a
default-constructed one when the key is absent. -/
def QHash.value {ν : Type} (h : QHash ν) (key : String) (dflt : ν) : ν :=
  match h.lookup key with
  | some v => v
  | none => dflt

/-! ## Declarations taken as parameters -/

/-- The value of `ItemType` is an `int` read from the item; the enumerators the
source compares it with are parameters. -/
structure ItemTypes where
  ItemType_Object : Int
  ItemType_PolicyRoot : Int
  ItemType_Policy : Int

/-- The string constants of the directory library that the source names. -/
structure AdDefines where
  ATTRIBUTE_GPLINK : String
  ATTRIBUTE_SYSTEM_FLAGS : String
  ATTRIBUTE_DISPLAY_NAME : String
  CLASS_USER : String
  CLASS_COMPUTER : String
  CLASS_OU : String
  CLASS_GROUP : String

/-- The enumerators of `SearchScope` that occur in the source. -/
inductive SearchScope
  | SearchScope_Object
  | SearchScope_Children
  | SearchScope_All
deriving DecidableEq, Repr

/-- The enumerators of `SystemFlagsBit` that occur in the source. -/
inductive SystemFlagsBit
  | SystemFlagsBit_CannotMove
  | SystemFlagsBit_CannotRename
  | SystemFlagsBit_CannotDelete
deriving DecidableEq, Repr

/-- The enumerator of `AccountOption` that occurs in the source. -/
inductive AccountOption
  | AccountOption_Disabled
deriving DecidableEq, Repr

/-- The methods of `AdObject` that the source calls, over an arbitrary
representation `Obj`; `default_object` is the default-constructed `AdObject()`. -/
structure AdObjectOps (Obj : Type) where
  default_object : Obj
  get_string : Obj → String → String
  is_empty : Obj → Bool
  contains : Obj → String → Bool
  get_system_flag : Obj → SystemFlagsBit → Bool
  is_class : Obj → String → Bool
  get_account_option : Obj → AccountOption → Bool

/-- The methods of `AdInterface` that the source calls, as transitions of the
connection state `σ`. -/
structure AdInterface (σ Obj : Type) where
  search : σ → String → SearchScope → String → List String → σ × QHash Obj
  search_object : σ → String → σ × Obj
  attribute_replace_string : σ → String → String → String → σ × Bool
  gpo_delete : σ → String → σ × Bool

/-- The three operations of `Gplink` that `console_policy_add_link` uses:
the constructor from a string, `add` and `to_string`. -/
structure GplinkOps (G : Type) where
  parse : String → G
  add : G → String → G
  to_string : G → String

/-! ## console_policy.cpp -/

/-- The enumerators of `ConsoleAction` named in `console_policy.cpp`; `Other`
stands for the enumerators of the other console types. -/
inductive ConsoleAction
  | ConsoleAction_PolicyCreate
  | ConsoleAction_PolicyAddLink
  | ConsoleAction_PolicyEdit
  | ConsoleAction_PolicyRename
  | ConsoleAction_PolicyDelete
  | Other (n : Nat)
deriving DecidableEq, Repr

/-- The function `console_policy_actions_get_state`: the two sets are passed in
and returned, `insert` is the only operation applied. -/
def console_policy_actions_get_state (T : ItemTypes) (index : QModelIndex)
    (single_selection : Bool)
    (visible_actions disabled_actions : Finset ConsoleAction) :
    Finset ConsoleAction × Finset ConsoleAction :=
  let type : Int := (index.data .ConsoleRole_Type).toInt
  let visible_actions :=
    if type = T.ItemType_PolicyRoot then
      insert ConsoleAction.ConsoleAction_PolicyCreate visible_actions
    else visible_actions
  let visible_actions :=
    if type = T.ItemType_Policy then
      if single_selection then
        insert ConsoleAction.ConsoleAction_PolicyDelete
          (insert ConsoleAction.ConsoleAction_PolicyRename
            (insert ConsoleAction.ConsoleAction_PolicyAddLink visible_actions))
      else
        insert ConsoleAction.ConsoleAction_PolicyDelete visible_actions
    else visible_actions
  (visible_actions, disabled_actions)

/-- Every call that leaves `console_policy.cpp`, in the order made. -/
inductive Effect
  | show_busy_indicator
  | hide_busy_indicator
  | ad_search (base : String) (scope : SearchScope) (filter : String)
      (attributes : List String)
  | ad_attribute_replace_string (dn attr value : String)
  | ad_gpo_delete (dn : String)
  | ad_search_object (dn : String)
  | console_delete_item (index : QModelIndex)
  | policy_results_widget_update
  | display_ad_messages
deriving DecidableEq, Repr

/-- The body of the loop over `ou_list` in `console_policy_add_link`, and the
rest of the loop after it. -/
def console_policy_add_link_loop {σ Obj G : Type} (ad : AdInterface σ Obj)
    (ops : AdObjectOps Obj) (gp : GplinkOps G) (K : AdDefines)
    (policy_list : List String) : List String → σ → σ × List Effect
  | [], st => (st, [])
  | ou_dn :: rest, st =>
    let base := ou_dn
    let scope := SearchScope.SearchScope_Object
    let filter := ""
    let attributes := [K.ATTRIBUTE_GPLINK]
    let found := ad.search st base scope filter attributes
    let ou_object := QHash.value found.2 ou_dn ops.default_object
    let gplink_string := ops.get_string ou_object K.ATTRIBUTE_GPLINK
    let gplink := policy_list.foldl gp.add (gp.parse gplink_string)
    let value := gp.to_string gplink
    let replaced := ad.attribute_replace_string found.1 ou_dn K.ATTRIBUTE_GPLINK value
    let tail := console_policy_add_link_loop ad ops gp K policy_list rest replaced.1
    (tail.1,
      Effect.ad_search base scope filter attributes
        :: Effect.ad_attribute_replace_string ou_dn K.ATTRIBUTE_GPLINK value
        :: tail.2)

/-- The function `console_policy_add_link`. `ad_failed` is the outcome of
`ad_failed(ad)` for the connection just opened, `st` the state of that
connection. -/
def console_policy_add_link {σ Obj G : Type} (ad : AdInterface σ Obj)
    (ops : AdObjectOps Obj) (gp : GplinkOps G) (K : AdDefines) (ad_failed : Bool)
    (policy_list ou_list : List String) (st : σ) : σ × List Effect :=
  if ad_failed then
    (st, [])
  else
    let looped := console_policy_add_link_loop ad ops gp K policy_list ou_list st
    (looped.1,
      [Effect.show_busy_indicator] ++ looped.2
        ++ [Effect.policy_results_widget_update, Effect.hide_busy_indicator,
            Effect.display_ad_messages])

/-- The two lists `console_policy_drop` computes before it calls
`console_policy_add_link`: `policy_list` and `ou_list`. -/
def console_policy_drop_lists (console_object_is_ou : QModelIndex → Bool)
    (dropped_list : List QModelIndex) (target : QModelIndex) :
    List String × List String :=
  let policy_dn := (target.data .PolicyRole_DN).toString
  let policy_list := [policy_dn]
  let ou_list :=
    dropped_list.foldl
      (fun out index =>
        if console_object_is_ou index then
          out ++ [(index.data .ObjectRole_DN).toString]
        else out)
      []
  (policy_list, ou_list)

/-- The function `console_policy_drop`. -/
def console_policy_drop {σ Obj G : Type} (ad : AdInterface σ Obj)
    (ops : AdObjectOps Obj) (gp : GplinkOps G) (K : AdDefines)
    (console_object_is_ou : QModelIndex → Bool) (ad_failed : Bool)
    (dropped_list : List QModelIndex) (target : QModelIndex) (st : σ) :
    σ × List Effect :=
  let lists := console_policy_drop_lists console_object_is_ou dropped_list target
  console_policy_add_link ad ops gp K ad_failed lists.1 lists.2 st

/-- The loop over the selected items in `policy_action_delete`. -/
def policy_action_delete_loop {σ Obj : Type} (ad : AdInterface σ Obj)
    (ops : AdObjectOps Obj) : List QModelIndex → σ → σ × List Effect
  | [], st => (st, [])
  | index :: rest, st =>
    let dn := (index.data .PolicyRole_DN).toString
    let deleted := ad.gpo_delete st dn
    let success := deleted.2
    let searched := ad.search_object deleted.1 dn
    let gpo_object := searched.2
    let object_deleted := ops.is_empty gpo_object
    let tail := policy_action_delete_loop ad ops rest searched.1
    (tail.1,
      Effect.ad_gpo_delete dn :: Effect.ad_search_object dn
        :: ((if success || object_deleted then [Effect.console_delete_item index] else [])
            ++ tail.2))

/-- The function `policy_action_delete`. `confirmed` is the answer of the
confirmation dialog, `ad_failed` the outcome of `ad_failed(ad)`, `selected`
the persistent indexes of the selected items. -/
def policy_action_delete {σ Obj : Type} (ad : AdInterface σ Obj)
    (ops : AdObjectOps Obj) (confirmed ad_failed : Bool)
    (selected : List QModelIndex) (st : σ) : σ × List Effect :=
  if !confirmed then
    (st, [])
  else if ad_failed then
    (st, [])
  else
    let looped := policy_action_delete_loop ad ops selected st
    (looped.1,
      [Effect.show_busy_indicator] ++ looped.2
        ++ [Effect.hide_busy_indicator, Effect.display_ad_messages])

/-! ## object_context_menu.cpp -/

/-- A `QAction` of the menu: its text and whether it is enabled. An action is
enabled when `addAction` creates it. -/
structure QAction where
  text : String
  enabled : Bool
deriving DecidableEq, Repr

/-- The call `action->setEnabled(b)`. -/
def QAction.setEnabled (a : QAction) (b : Bool) : QAction :=
  { a with enabled := b }

/-- The menu the constructor of `ObjectContextMenu` builds: one field per
action the constructor keeps a handle to, the entries of the "New" submenu,
and the entries added for a user object. -/
structure ObjectContextMenu where
  details_action : QAction
  delete_action : QAction
  rename_action : QAction
  submenu_new : List QAction
  move_action : QAction
  user_actions : List QAction
deriving DecidableEq, Repr

/-- The two text sources of the menu: `tr` and
`ADCONFIG()->get_class_display_name`. -/
structure MenuTexts where
  tr : String → String
  get_class_display_name : String → String

/-- The constructor of `ObjectContextMenu` after the search of line 53:
the menu built for the object the search returned. -/
def ObjectContextMenu.build {Obj : Type} (ops : AdObjectOps Obj) (K : AdDefines)
    (texts : MenuTexts) (object : Obj) : ObjectContextMenu :=
  let details_action : QAction := { text := texts.tr "Details", enabled := true }
  let delete_action : QAction := { text := texts.tr "Delete", enabled := true }
  let rename_action : QAction := { text := texts.tr "Rename", enabled := true }
  let create_classes := [K.CLASS_USER, K.CLASS_COMPUTER, K.CLASS_OU, K.CLASS_GROUP]
  let submenu_new : List QAction :=
    create_classes.map
      (fun object_class =>
        { text := texts.get_class_display_name object_class, enabled := true })
  let move_action : QAction := { text := texts.tr "Move", enabled := true }
  let user_actions : List QAction :=
    if ops.is_class object K.CLASS_USER then
      let disabled := ops.get_account_option object AccountOption.AccountOption_Disabled
      let disable_text :=
        if disabled then texts.tr "Enable account" else texts.tr "Disable account"
      [{ text := texts.tr "Add to group", enabled := true },
       { text := texts.tr "Reset password", enabled := true },
       { text := disable_text, enabled := true }]
    else []
  if ops.contains object K.ATTRIBUTE_SYSTEM_FLAGS then
    let cannot_move := ops.get_system_flag object SystemFlagsBit.SystemFlagsBit_CannotMove
    let cannot_rename := ops.get_system_flag object SystemFlagsBit.SystemFlagsBit_CannotRename
    let cannot_delete := ops.get_system_flag object SystemFlagsBit.SystemFlagsBit_CannotDelete
    { details_action := details_action
      delete_action := if cannot_delete then delete_action.setEnabled false else delete_action
      rename_action := if cannot_rename then rename_action.setEnabled false else rename_action
      submenu_new := submenu_new
      move_action := if cannot_move then move_action.setEnabled false else move_action
      user_actions := user_actions }
  else
    { details_action := details_action
      delete_action := delete_action
      rename_action := rename_action
      submenu_new := submenu_new
      move_action := move_action
      user_actions := user_actions }

/-- Every call that leaves the context-menu handler, in the order made. -/
inductive MenuEffect
  | ad_search_object (dn : String)
  | exec_menu_from_view (menu : ObjectContextMenu) (pos : QPoint)
deriving DecidableEq, Repr

/-- The constructor `ObjectContextMenu::ObjectContextMenu(dn)`: the search of
the object, then the menu built for it. -/
def ObjectContextMenu.create {σ Obj : Type} (ad : AdInterface σ Obj)
    (ops : AdObjectOps Obj) (K : AdDefines) (texts : MenuTexts) (st : σ) (dn : String) :
    σ × ObjectContextMenu × List MenuEffect :=
  let searched := ad.search_object st dn
  let object := searched.2
  (searched.1, ObjectContextMenu.build ops K texts object, [MenuEffect.ad_search_object dn])

/-- The handler `ObjectContextMenu::connect_view` connects to
`customContextMenuRequested`, run for a request at `pos`. -/
def connect_view_handler {σ Obj : Type} (ad : AdInterface σ Obj)
    (ops : AdObjectOps Obj) (K : AdDefines) (texts : MenuTexts)
    (get_dn_from_pos : QPoint → Int → String) (dn_column : Int) (pos : QPoint) (st : σ) :
    σ × List MenuEffect :=
  let dn := get_dn_from_pos pos dn_column
  if dn = "" then
    (st, [])
  else
    let context_menu := ObjectContextMenu.create ad ops K texts st dn
    (context_menu.1,
      context_menu.2.2 ++ [MenuEffect.exec_menu_from_view context_menu.2.1 pos])

/-- The DNs for which a log records the search an `ObjectContextMenu`
constructor makes, in order. -/
def menus_constructed : List MenuEffect → List String
  | [] => []
  | MenuEffect.ad_search_object dn :: rest => dn :: menus_constructed rest
  | _ :: rest => menus_constructed rest

/-- The menus a log records as executed, in order. -/
def menus_executed : List MenuEffect → List ObjectContextMenu
  | [] => []
  | MenuEffect.exec_menu_from_view menu _ :: rest => menu :: menus_executed rest
  | _ :: rest => menus_executed rest

/-! ## The gPLink codec

`gplink.h` is not among the sources at hand. The codec below is written from
the specification's description of it: an ordered list of (policy-object-DN,
flags) pairs kept in one delimited string attribute, parsed, edited and
serialised again in the syntax Active Directory uses for the attribute, which
is one group `[LDAP://<DN>;<flags>]` per link, the groups concatenated in list
order and the flags written as a decimal number. -/

/-- Modelled from the spec: the class `Gplink` of `gplink.h`, "an ordered list
of (policy-object-DN, flags) pairs". -/
structure Gplink where
  links : List (String × Nat)
deriving DecidableEq, Repr

/-- Modelled from the spec: the characters that open one link of a gPLink
string of `gplink.h`, the bracket and the `LDAP://` scheme before the DN. -/
def Gplink.link_open : List Char := '[' :: "LDAP://".data

/-- Modelled from the spec: serialisation of one (DN, flags) pair of `gplink.h`,
`[LDAP://<DN>;<flags>]` with the flags in decimal. -/
def Gplink.link_to_chars (l : String × Nat) : List Char :=
  Gplink.link_open ++ l.1.data ++ ';' :: (Nat.toDigits 10 l.2 ++ [']'])

/-- Modelled from the spec: serialisation of the ordered list of `gplink.h`,
the links one after the other in list order. -/
def Gplink.links_to_chars (links : List (String × Nat)) : List Char :=
  links.flatMap Gplink.link_to_chars

/-- Modelled from the spec: `Gplink::to_string()` of `gplink.h`, the
re-serialisation of the link list as "a single delimited string". -/
def Gplink.to_string (g : Gplink) : String :=
  String.mk (Gplink.links_to_chars g.links)

/-- Modelled from the spec: a helper of the parser of `gplink.h`; the input
with the given leading characters removed, when it starts with them. -/
def Gplink.strip_leading : List Char → List Char → Option (List Char)
  | [], cs => some cs
  | _ :: _, [] => none
  | p :: ps, c :: cs => if p = c then Gplink.strip_leading ps cs else none

/-- Modelled from the spec: a helper of the parser of `gplink.h`; the input
split at the first occurrence of the delimiter `d`, when there is one. -/
def Gplink.split_at_char (d : Char) : List Char → Option (List Char × List Char)
  | [] => none
  | c :: cs =>
    if c = d then some ([], cs)
    else (Gplink.split_at_char d cs).map (fun r => (c :: r.1, r.2))

/-- Modelled from the spec: a helper of the parser of `gplink.h`; the number
written by a run of decimal digits, continuing from `acc`. -/
def Gplink.read_digits : Nat → List Char → Option Nat
  | acc, [] => some acc
  | acc, c :: cs =>
    if c.isDigit then Gplink.read_digits (acc * 10 + (c.toNat - 48)) cs else none

/-- Modelled from the spec: a helper of the parser of `gplink.h`; the flags
field of a link, a non-empty run of decimal digits. -/
def Gplink.read_flags (cs : List Char) : Option Nat :=
  if cs = [] then none else Gplink.read_digits 0 cs

/-- Modelled from the spec: the parser of `gplink.h` on characters; it reads
links from the left for as long as the input continues with a complete
`[LDAP://<DN>;<flags>]` group and stops at the first place that does not.
The first argument bounds the number of links read. -/
def Gplink.parse_links : Nat → List Char → List (String × Nat)
  | 0, _ => []
  | fuel + 1, cs =>
    match Gplink.strip_leading Gplink.link_open cs with
    | none => []
    | some r1 =>
      match Gplink.split_at_char ';' r1 with
      | none => []
      | some (dn, r2) =>
        match Gplink.split_at_char ']' r2 with
        | none => []
        | some (fl, r3) =>
          match Gplink.read_flags fl with
          | none => []
          | some n => (String.mk dn, n) :: Gplink.parse_links fuel r3

/-- Modelled from the spec: the constructor `Gplink(const QString &)` of
`gplink.h`, the parse of a gPLink string. A string of `n` characters holds
fewer than `n` links, so the bound never cuts the parse short. -/
def Gplink.parse (s : String) : Gplink :=
  { links := Gplink.parse_links s.data.length s.data }

/-- Modelled from the spec: `Gplink::add` of `gplink.h`, the edit "add link";
the new link goes to the end of the ordered list with no flag bit set. -/
def Gplink.add (g : Gplink) (gpo : String) : Gplink :=
  { links := g.links ++ [(gpo, 0)] }

/-- Modelled from the spec: the three operations of `gplink.h` in the shape
`console_policy_add_link` takes them. -/
def Gplink.ops : GplinkOps Gplink :=
  { parse := Gplink.parse, add := Gplink.add, to_string := Gplink.to_string }

/-! ## Observations on the log -/

/-- The `attribute_replace_string` calls of a log, in order: target DN,
attribute and value written. -/
def replace_calls : List Effect → List (String × String × String)
  | [] => []
  | Effect.ad_attribute_replace_string dn attr value :: rest =>
    (dn, attr, value) :: replace_calls rest
  | _ :: rest => replace_calls rest

/-- The gPLink string `console_policy_add_link` reads for `ou_dn` when the
connection is in state `st`: the search of lines 174-178 followed by
`results[ou_dn].get_string(ATTRIBUTE_GPLINK)`. -/
def gplink_read {σ Obj : Type} (ad : AdInterface σ Obj) (ops : AdObjectOps Obj)
    (K : AdDefines) (st : σ) (ou_dn : String) : String :=
  ops.get_string
    (QHash.value
      (ad.search st ou_dn SearchScope.SearchScope_Object "" [K.ATTRIBUTE_GPLINK]).2
      ou_dn ops.default_object)
    K.ATTRIBUTE_GPLINK

/-- The value the claim prescribes for the replace on `ou_dn` when the
connection is in state `st`: `to_string()` of the `Gplink` parsed from the
string read for `ou_dn`, after `add(p)` for each `p` of `policy_list` in list
order. -/
def add_link_value {σ Obj G : Type} (ad : AdInterface σ Obj) (ops : AdObjectOps Obj)
    (gp : GplinkOps G) (K : AdDefines) (policy_list : List String) (st : σ)
    (ou_dn : String) : String :=
  gp.to_string (policy_list.foldl gp.add (gp.parse (gplink_read ad ops K st ou_dn)))

/-- The connection state after the directory has served, from state `st`, the
search for `ou_dn` and then the replace of its gPLink attribute by
`add_link_value`: what one OU costs the directory, written with the two
directory operations themselves and without the loop. -/
def add_link_state_after {σ Obj G : Type} (ad : AdInterface σ Obj)
    (ops : AdObjectOps Obj) (gp : GplinkOps G) (K : AdDefines)
    (policy_list : List String) (st : σ) (ou_dn : String) : σ :=
  (ad.attribute_replace_string
    (ad.search st ou_dn SearchScope.SearchScope_Object "" [K.ATTRIBUTE_GPLINK]).1
    ou_dn K.ATTRIBUTE_GPLINK
    (add_link_value ad ops gp K policy_list st ou_dn)).1

/-- The enumerator values of a build in which `ItemType_PolicyRoot` and
`ItemType_Policy` are 2 and 3. -/
def sample_item_types : ItemTypes :=
  { ItemType_Object := 1, ItemType_PolicyRoot := 2, ItemType_Policy := 3 }

/-- A policy item at row 0, as `console_policy_load` fills it. -/
def sample_policy_index : QModelIndex :=
  { row := 0
    type_data := { toInt := 3, toString := "3" }
    policy_dn_data := { toInt := 0, toString := "CN={A1},CN=Policies,CN=System,DC=test" }
    object_dn_data := { toInt := 0, toString := "" } }

/-- The attribute and class names of a sample build. -/
def sample_defines : AdDefines :=
  { ATTRIBUTE_GPLINK := "gPLink"
    ATTRIBUTE_SYSTEM_FLAGS := "systemFlags"
    ATTRIBUTE_DISPLAY_NAME := "displayName"
    CLASS_USER := "user"
    CLASS_COMPUTER := "computer"
    CLASS_OU := "organizationalUnit"
    CLASS_GROUP := "group" }

/-- A sample directory: the state is the list of (DN, gPLink value) entries,
an object is the gPLink value found for a DN, if any. A replace puts a new
entry in front, `gpo_delete` removes the entries of a DN. -/
def sample_ad : AdInterface (List (String × String)) (Option String) :=
  { search := fun st base _ _ _ =>
      (st, match st.lookup base with
           | some v => [(base, some v)]
           | none => [])
    search_object := fun st dn => (st, st.lookup dn)
    attribute_replace_string := fun st dn _ value => ((dn, value) :: st, true)
    gpo_delete := fun st dn =>
      (st.filter (fun e => e.1 != dn), st.any (fun e => e.1 == dn)) }

/-- The object methods of the sample directory. -/
def sample_ops : AdObjectOps (Option String) :=
  { default_object := none
    get_string := fun o _ => o.getD ""
    is_empty := fun o => o.isNone
    contains := fun _ _ => false
    get_system_flag := fun _ _ => false
    is_class := fun _ _ => false
    get_account_option := fun _ _ => false }

/-- The sample directory with a `gpo_delete` that removes the object and then
reports failure, as when deleting the policy's files fails. -/
def sample_ad_delete_fails : AdInterface (List (String × String)) (Option String) :=
  { sample_ad with
    gpo_delete := fun st dn => (st.filter (fun e => e.1 != dn), false) }

/-- A sample directory state: one OU linked to one policy with flags 2. -/
def sample_state : List (String × String) :=
  [("OU=a,DC=test", "[LDAP://CN={A1},CN=Policies,CN=System,DC=test;2]")]

/-- Two links, the second one with a flag bit set. -/
def sample_links : List (String × Nat) :=
  [("CN={A1},CN=Policies,CN=System,DC=test", 0),
   ("CN={B2},CN=Policies,CN=System,DC=test", 2)]

/-! ## Lemmas -/

theorem replace_calls_append (xs ys : List Effect) :
    replace_calls (xs ++ ys) = replace_calls xs ++ replace_calls ys := by
  induction xs with
  | nil => rfl
  | cons x xs ih => cases x <;> simp [replace_calls, ih]

/-- The replace calls of the loop of `console_policy_add_link`, position by
position: the `i`-th one targets the `i`-th OU and writes the re-serialised
link list built from the string read in the state the first `i` iterations
leave behind. -/
theorem replace_calls_loop {σ Obj G : Type} (ad : AdInterface σ Obj)
    (ops : AdObjectOps Obj) (gp : GplinkOps G) (K : AdDefines)
    (policy_list : List String) (ou_list : List String) (st : σ) :
    replace_calls (console_policy_add_link_loop ad ops gp K policy_list ou_list st).2 =
      (List.range ou_list.length).map (fun i =>
        (ou_list.getD i "", K.ATTRIBUTE_GPLINK,
          gp.to_string (policy_list.foldl gp.add (gp.parse
            (gplink_read ad ops K
              (console_policy_add_link_loop ad ops gp K policy_list (ou_list.take i) st).1
              (ou_list.getD i "")))))) := by
  induction ou_list generalizing st with
  | nil => rfl
  | cons d rest ih =>
    rw [List.length_cons, List.range_succ_eq_map, List.map_cons, List.map_map]
    simp only [console_policy_add_link_loop, replace_calls, ih]
    refine congrArg₂ List.cons ?_ ?_
    · simp [gplink_read, console_policy_add_link_loop]
    · refine List.map_congr_left ?_
      intro i _
      simp [console_policy_add_link_loop]

theorem drop_ou_list_foldl (is_ou : QModelIndex → Bool) (dropped_list : List QModelIndex)
    (acc : List String) :
    dropped_list.foldl
      (fun out index =>
        if is_ou index then out ++ [(index.data .ObjectRole_DN).toString] else out)
      acc
      = acc ++ (dropped_list.filter is_ou).map
          (fun index => (index.data .ObjectRole_DN).toString) := by
  induction dropped_list generalizing acc with
  | nil => simp
  | cons x xs ih =>
    rw [List.foldl_cons, ih]
    by_cases h : is_ou x <;> simp [h, List.filter_cons]

theorem Gplink.strip_leading_append (p r : List Char) :
    Gplink.strip_leading p (p ++ r) = some r := by
  induction p with
  | nil => cases r <;> rfl
  | cons c p ih => simp [Gplink.strip_leading, ih]

theorem Gplink.split_at_char_append (d : Char) (xs r : List Char) (h : d ∉ xs) :
    Gplink.split_at_char d (xs ++ d :: r) = some (xs, r) := by
  induction xs with
  | nil => simp [Gplink.split_at_char]
  | cons c xs ih =>
    have hc : ¬ c = d := fun e => h (by simp [e])
    have hx : d ∉ xs := fun e => h (by simp [e])
    simp [Gplink.split_at_char, hc, ih hx]

theorem Gplink.split_at_char_not_mem (d : Char) (cs a b : List Char)
    (h : Gplink.split_at_char d cs = some (a, b)) : d ∉ a := by
  induction cs generalizing a b with
  | nil => simp [Gplink.split_at_char] at h
  | cons c cs ih =>
    simp only [Gplink.split_at_char] at h
    by_cases hc : c = d
    · simp only [hc, if_true, Option.some.injEq, Prod.mk.injEq] at h
      rw [← h.1]
      simp
    · simp only [hc, if_false] at h
      cases hs : Gplink.split_at_char d cs with
      | none => simp [hs] at h
      | some r =>
        obtain ⟨r1, r2⟩ := r
        simp [hs] at h
        have := ih r1 r2 hs
        rw [← h.1]
        simp [this]
        exact fun e => hc e.symm

theorem Gplink.read_digits_append (acc : Nat) (xs ys : List Char) :
    Gplink.read_digits acc (xs ++ ys) =
      (Gplink.read_digits acc xs).bind (fun v => Gplink.read_digits v ys) := by
  induction xs generalizing acc with
  | nil => rfl
  | cons c xs ih =>
    simp only [List.cons_append, Gplink.read_digits]
    split
    · exact ih _
    · rfl

theorem Gplink.read_digits_isDigit (acc v : Nat) (xs : List Char)
    (h : Gplink.read_digits acc xs = some v) : ∀ c ∈ xs, c.isDigit = true := by
  induction xs generalizing acc with
  | nil => simp
  | cons c xs ih =>
    simp only [Gplink.read_digits] at h
    by_cases hc : c.isDigit = true
    · simp only [hc, if_true] at h
      intro x hx
      rcases List.mem_cons.1 hx with e | e
      · rw [e]; exact hc
      · exact ih _ h x e
    · simp [hc] at h

theorem Gplink.digitChar_isDigit (k : Nat) (h : k < 10) :
    (Nat.digitChar k).isDigit = true ∧ (Nat.digitChar k).toNat - 48 = k := by
  interval_cases k <;> decide

theorem Gplink.toDigitsCore_append (fuel n : Nat) (ds : List Char) :
    Nat.toDigitsCore 10 fuel n ds = Nat.toDigitsCore 10 fuel n [] ++ ds := by
  induction fuel generalizing n ds with
  | zero => simp [Nat.toDigitsCore]
  | succ fuel ih =>
    simp only [Nat.toDigitsCore]
    split
    · simp
    · rw [ih (n / 10) (Nat.digitChar (n % 10) :: ds), ih (n / 10) [Nat.digitChar (n % 10)]]
      simp

theorem Gplink.read_digits_toDigitsCore (fuel n : Nat) (h : n < fuel) :
    Gplink.read_digits 0 (Nat.toDigitsCore 10 fuel n []) = some n := by
  induction fuel generalizing n with
  | zero => omega
  | succ fuel ih =>
    have hd := Gplink.digitChar_isDigit (n % 10) (Nat.mod_lt _ (by norm_num))
    simp only [Nat.toDigitsCore]
    split
    · rename_i h0
      have : n % 10 = n := by omega
      simp only [Gplink.read_digits, hd.1, hd.2, if_true, Nat.zero_mul, Nat.zero_add]
      rw [this]
    · rename_i h0
      have hlt : n / 10 < fuel := by omega
      rw [Gplink.toDigitsCore_append, Gplink.read_digits_append, ih _ hlt]
      simp [Gplink.read_digits, hd.1, hd.2]
      omega

theorem Gplink.toDigits_ne_nil (n : Nat) : Nat.toDigits 10 n ≠ [] := by
  simp only [Nat.toDigits, Nat.toDigitsCore]
  split
  · simp
  · rw [Gplink.toDigitsCore_append]; simp

theorem Gplink.read_flags_toDigits (n : Nat) :
    Gplink.read_flags (Nat.toDigits 10 n) = some n := by
  simp only [Gplink.read_flags, Gplink.toDigits_ne_nil, if_false]
  exact Gplink.read_digits_toDigitsCore (n + 1) n (Nat.lt_succ_self n)

theorem Gplink.close_not_mem_toDigits (n : Nat) : ']' ∉ Nat.toDigits 10 n := by
  intro h
  have := Gplink.read_digits_isDigit 0 n _
    (Gplink.read_digits_toDigitsCore (n + 1) n (Nat.lt_succ_self n)) _ h
  exact absurd this (by decide)

theorem Gplink.parse_links_nil (fuel : Nat) : Gplink.parse_links fuel [] = [] := by
  cases fuel <;> rfl

theorem Gplink.parse_links_append (links : List (String × Nat))
    (h : ∀ l ∈ links, ';' ∉ l.1.data) (fuel : Nat) (rest : List Char) :
    Gplink.parse_links (links.length + fuel) (Gplink.links_to_chars links ++ rest) =
      links ++ Gplink.parse_links fuel rest := by
  induction links with
  | nil => simp [Gplink.links_to_chars]
  | cons l links ih =>
    have hl : ';' ∉ l.1.data := h l (by simp)
    have hrest : ∀ x ∈ links, ';' ∉ x.1.data := fun x hx => h x (by simp [hx])
    have e : (l :: links).length + fuel = (links.length + fuel) + 1 := by
      simp only [List.length_cons]; omega
    rw [e]
    simp only [Gplink.links_to_chars, List.flatMap_cons, Gplink.link_to_chars,
      List.append_assoc, Gplink.parse_links, Gplink.strip_leading_append]
    rw [List.cons_append, Gplink.split_at_char_append _ _ _ hl]
    simp only [List.append_assoc, List.singleton_append]
    rw [Gplink.split_at_char_append _ _ _ (Gplink.close_not_mem_toDigits l.2)]
    simp only [Gplink.read_flags_toDigits]
    have := ih hrest
    simp only [Gplink.links_to_chars] at this
    rw [this]
    rfl

theorem Gplink.length_le_links_to_chars (links : List (String × Nat)) :
    links.length ≤ (Gplink.links_to_chars links).length := by
  induction links with
  | nil => simp
  | cons l links ih =>
    simp only [Gplink.links_to_chars, List.flatMap_cons, List.length_append,
      List.length_cons, Gplink.link_to_chars] at ih ⊢
    omega

theorem Gplink.parse_links_dn (fuel : Nat) (cs : List Char) :
    ∀ l ∈ Gplink.parse_links fuel cs, ';' ∉ l.1.data := by
  induction fuel generalizing cs with
  | zero => simp [Gplink.parse_links]
  | succ fuel ih =>
    intro l hl
    simp only [Gplink.parse_links] at hl
    split at hl
    · simp at hl
    · split at hl
      · simp at hl
      · rename_i dn r2 hs
        split at hl
        · simp at hl
        · split at hl
          · simp at hl
          · rcases List.mem_cons.1 hl with e | e
            · rw [e]
              exact Gplink.split_at_char_not_mem _ _ _ _ hs
            · exact ih _ l e

theorem Gplink.strip_leading_length (p cs r : List Char)
    (h : Gplink.strip_leading p cs = some r) : r.length ≤ cs.length := by
  induction p generalizing cs with
  | nil =>
    cases cs <;> simp [Gplink.strip_leading] at h <;> simp [← h]
  | cons c p ih =>
    cases cs with
    | nil => simp [Gplink.strip_leading] at h
    | cons d cs =>
      simp only [Gplink.strip_leading] at h
      split at h
      · have := ih cs h
        simp only [List.length_cons]
        omega
      · simp at h

theorem Gplink.split_at_char_length (d : Char) (cs a b : List Char)
    (h : Gplink.split_at_char d cs = some (a, b)) : b.length < cs.length := by
  induction cs generalizing a b with
  | nil => simp [Gplink.split_at_char] at h
  | cons c cs ih =>
    simp only [Gplink.split_at_char] at h
    by_cases hc : c = d
    · simp only [hc, if_true, Option.some.injEq, Prod.mk.injEq] at h
      rw [← h.2]
      simp
    · simp only [hc, if_false] at h
      cases hs : Gplink.split_at_char d cs with
      | none => simp [hs] at h
      | some r =>
        obtain ⟨r1, r2⟩ := r
        simp [hs] at h
        have := ih r1 r2 hs
        rw [← h.2]
        simp only [List.length_cons]
        omega

/-- The bound of `Gplink.parse_links` never cuts a parse short: any two bounds
that are at least the length of the input give the same links. -/
theorem Gplink.parse_links_fuel (f1 f2 : Nat) (cs : List Char)
    (h1 : cs.length ≤ f1) (h2 : cs.length ≤ f2) :
    Gplink.parse_links f1 cs = Gplink.parse_links f2 cs := by
  induction f1 generalizing f2 cs with
  | zero =>
    have : cs = [] := List.length_eq_zero.1 (Nat.le_zero.1 h1)
    subst this
    rw [Gplink.parse_links_nil, Gplink.parse_links_nil]
  | succ f1 ih =>
    cases f2 with
    | zero =>
      have : cs = [] := List.length_eq_zero.1 (Nat.le_zero.1 h2)
      subst this
      rw [Gplink.parse_links_nil, Gplink.parse_links_nil]
    | succ f2 =>
      simp only [Gplink.parse_links]
      cases ha : Gplink.strip_leading Gplink.link_open cs with
      | none => rfl
      | some r1 =>
        have l1 := Gplink.strip_leading_length _ _ _ ha
        dsimp only
        cases hb : Gplink.split_at_char ';' r1 with
        | none => rfl
        | some x =>
          obtain ⟨dn, r2⟩ := x
          have l2 := Gplink.split_at_char_length _ _ _ _ hb
          dsimp only
          cases hc : Gplink.split_at_char ']' r2 with
          | none => rfl
          | some y =>
            obtain ⟨fl, r3⟩ := y
            have l3 := Gplink.split_at_char_length _ _ _ _ hc
            dsimp only
            cases hd : Gplink.read_flags fl with
            | none => rfl
            | some n =>
              dsimp only
              rw [ih f2 r3 (by omega) (by omega)]

theorem Gplink.foldl_add_links (g : Gplink) (ps : List String) :
    (ps.foldl Gplink.add g).links = g.links ++ ps.map (fun p => (p, 0)) := by
  induction ps generalizing g with
  | nil => simp
  | cons p ps ih => simp [ih, Gplink.add]

theorem Gplink.parse_to_string_append (links extra : List (String × Nat))
    (h : ∀ l ∈ links, ';' ∉ l.1.data) :
    ∃ more, (Gplink.parse (Gplink.to_string { links := links ++ extra })).links =
      links ++ more := by
  refine ⟨Gplink.parse_links
    ((Gplink.links_to_chars (links ++ extra)).length - links.length)
    (Gplink.links_to_chars extra), ?_⟩
  have hlen : links.length ≤ (Gplink.links_to_chars (links ++ extra)).length :=
    le_trans (by simp) (Gplink.length_le_links_to_chars (links ++ extra))
  simp only [Gplink.parse, Gplink.to_string]
  have e : (Gplink.links_to_chars (links ++ extra)).length =
      links.length + ((Gplink.links_to_chars (links ++ extra)).length - links.length) := by
    omega
  rw [e]
  have e2 : Gplink.links_to_chars (links ++ extra) =
      Gplink.links_to_chars links ++ Gplink.links_to_chars extra := by
    simp [Gplink.links_to_chars]
  rw [e2, Gplink.parse_links_append links h]
  rw [← e2, ← e]

theorem Gplink.parse_to_string (g : Gplink) (h : ∀ l ∈ g.links, ';' ∉ l.1.data) :
    Gplink.parse (Gplink.to_string g) = g := by
  obtain ⟨links⟩ := g
  simp only [Gplink.parse, Gplink.to_string]
  have hlen := Gplink.length_le_links_to_chars links
  have e : (Gplink.links_to_chars links).length =
      links.length + ((Gplink.links_to_chars links).length - links.length) := by omega
  rw [e]
  have := Gplink.parse_links_append links h
    ((Gplink.links_to_chars links).length - links.length) []
  simp only [List.append_nil, Gplink.parse_links_nil] at this
  rw [← e] at this ⊢
  rw [this]


/-- The state the loop of `console_policy_add_link` returns is the state the
directory reaches by serving, OU after OU, the search and the replace. -/
theorem add_link_loop_state {σ Obj G : Type} (ad : AdInterface σ Obj)
    (ops : AdObjectOps Obj) (gp : GplinkOps G) (K : AdDefines)
    (policy_list : List String) (ou_list : List String) (st : σ) :
    (console_policy_add_link_loop ad ops gp K policy_list ou_list st).1 =
      ou_list.foldl (add_link_state_after ad ops gp K policy_list) st := by
  induction ou_list generalizing st with
  | nil => rfl
  | cons d rest ih =>
    simp only [console_policy_add_link_loop, List.foldl_cons]
    rw [ih]
    rfl

/-- The log of the loop of `console_policy_add_link`: for each OU in turn the
search and then the replace, with the value prescribed for the state the
directory is in when that OU is reached. -/
theorem add_link_loop_log {σ Obj G : Type} (ad : AdInterface σ Obj)
    (ops : AdObjectOps Obj) (gp : GplinkOps G) (K : AdDefines)
    (policy_list : List String) (ou_list : List String) (st : σ) :
    (console_policy_add_link_loop ad ops gp K policy_list ou_list st).2 =
      ((List.range ou_list.length).map (fun i =>
        [Effect.ad_search (ou_list.getD i "") SearchScope.SearchScope_Object ""
            [K.ATTRIBUTE_GPLINK],
         Effect.ad_attribute_replace_string (ou_list.getD i "") K.ATTRIBUTE_GPLINK
            (add_link_value ad ops gp K policy_list
              ((ou_list.take i).foldl (add_link_state_after ad ops gp K policy_list) st)
              (ou_list.getD i ""))])).flatten := by
  induction ou_list generalizing st with
  | nil => rfl
  | cons d rest ih =>
    rw [List.length_cons, List.range_succ_eq_map, List.map_cons, List.map_map,
      List.flatten_cons]
    simp only [console_policy_add_link_loop, ih]
    simp only [List.take_zero, List.foldl_nil, List.getD_cons_zero, List.cons_append,
      List.nil_append]
    refine congrArg₂ List.cons rfl (congrArg₂ List.cons rfl ?_)
    refine congrArg List.flatten (List.map_congr_left ?_)
    intro i _
    simp only [Function.comp, Nat.succ_eq_add_one, List.getD_cons_succ, List.take_succ_cons,
      List.foldl_cons]
    rfl

/-! ## Statements about `console_policy.cpp` -/

/-- C1. When the connection succeeds, `console_policy_add_link` issues one
`attribute_replace_string` call per element of `ou_list`, in `ou_list` order
and all on the gPLink attribute; the value of the `i`-th call is `to_string()`
of the `Gplink` parsed from the gPLink string read from the `i`-th OU with
`add(p)` applied for each `p` of `policy_list` in list order, the string being
read in the state the directory has reached by serving the searches and the
replaces of the first `i` OUs. Each replace is applied to the directory: the
state returned is the one reached by serving the search and the replace of
every OU in turn, and the whole log is the busy indicator, then for each OU
its search and its replace, then the widget update, the end of the busy
indicator and the display of the messages. -/
theorem console_policy_add_link_writes {σ Obj G : Type} (ad : AdInterface σ Obj)
    (ops : AdObjectOps Obj) (gp : GplinkOps G) (K : AdDefines)
    (policy_list ou_list : List String) (st : σ) :
    replace_calls (console_policy_add_link ad ops gp K false policy_list ou_list st).2 =
        (List.range ou_list.length).map (fun i =>
          (ou_list.getD i "", K.ATTRIBUTE_GPLINK,
            gp.to_string (policy_list.foldl gp.add (gp.parse
              (gplink_read ad ops K
                ((ou_list.take i).foldl (add_link_state_after ad ops gp K policy_list) st)
                (ou_list.getD i ""))))))
      ∧ (replace_calls
          (console_policy_add_link ad ops gp K false policy_list ou_list st).2).map
            (fun c => c.1) = ou_list
      ∧ (console_policy_add_link ad ops gp K false policy_list ou_list st).1 =
          ou_list.foldl (add_link_state_after ad ops gp K policy_list) st
      ∧ (console_policy_add_link ad ops gp K false policy_list ou_list st).2 =
          [Effect.show_busy_indicator]
            ++ ((List.range ou_list.length).map (fun i =>
                [Effect.ad_search (ou_list.getD i "") SearchScope.SearchScope_Object ""
                    [K.ATTRIBUTE_GPLINK],
                 Effect.ad_attribute_replace_string (ou_list.getD i "") K.ATTRIBUTE_GPLINK
                    (gp.to_string (policy_list.foldl gp.add (gp.parse
                      (gplink_read ad ops K
                        ((ou_list.take i).foldl
                          (add_link_state_after ad ops gp K policy_list) st)
                        (ou_list.getD i "")))))])).flatten
            ++ [Effect.policy_results_widget_update, Effect.hide_busy_indicator,
                Effect.display_ad_messages] := by
  have hlog : replace_calls
      (console_policy_add_link ad ops gp K false policy_list ou_list st).2 =
      replace_calls (console_policy_add_link_loop ad ops gp K policy_list ou_list st).2 := by
    simp [console_policy_add_link, replace_calls_append, replace_calls]
  have hcalls : replace_calls
      (console_policy_add_link_loop ad ops gp K policy_list ou_list st).2 =
      (List.range ou_list.length).map (fun i =>
        (ou_list.getD i "", K.ATTRIBUTE_GPLINK,
          gp.to_string (policy_list.foldl gp.add (gp.parse
            (gplink_read ad ops K
              ((ou_list.take i).foldl (add_link_state_after ad ops gp K policy_list) st)
              (ou_list.getD i "")))))) := by
    rw [replace_calls_loop]
    refine List.map_congr_left ?_
    intro i _
    rw [add_link_loop_state]
  refine ⟨?_, ?_, ?_, ?_⟩
  · rw [hlog, hcalls]
  · rw [hlog, hcalls, List.map_map]
    apply List.ext_getElem
    · simp
    · intro i h1 h2
      simp [List.getD_eq_getElem?_getD, List.getElem?_eq_getElem h2]
  · simp only [console_policy_add_link, Bool.false_eq_true, if_false]
    exact add_link_loop_state ad ops gp K policy_list ou_list st
  · simp only [console_policy_add_link, Bool.false_eq_true, if_false]
    rw [add_link_loop_log]
    rfl

/-- The log and the final state of `console_policy_add_link` on the sample
directory when the same OU is listed twice: the second replace is computed
from the value the first one wrote, and both writes are in the state
returned. -/
theorem console_policy_add_link_sample_twice :
    replace_calls
        (console_policy_add_link sample_ad sample_ops Gplink.ops sample_defines false
          ["CN={B2},CN=Policies,CN=System,DC=test"] ["OU=a,DC=test", "OU=a,DC=test"]
          sample_state).2 =
      [("OU=a,DC=test", "gPLink",
         "[LDAP://CN={A1},CN=Policies,CN=System,DC=test;2]"
           ++ "[LDAP://CN={B2},CN=Policies,CN=System,DC=test;0]"),
       ("OU=a,DC=test", "gPLink",
         "[LDAP://CN={A1},CN=Policies,CN=System,DC=test;2]"
           ++ "[LDAP://CN={B2},CN=Policies,CN=System,DC=test;0]"
           ++ "[LDAP://CN={B2},CN=Policies,CN=System,DC=test;0]")]
    ∧ (console_policy_add_link sample_ad sample_ops Gplink.ops sample_defines false
          ["CN={B2},CN=Policies,CN=System,DC=test"] ["OU=a,DC=test", "OU=a,DC=test"]
          sample_state).1 =
      [("OU=a,DC=test",
         "[LDAP://CN={A1},CN=Policies,CN=System,DC=test;2]"
           ++ "[LDAP://CN={B2},CN=Policies,CN=System,DC=test;0]"
           ++ "[LDAP://CN={B2},CN=Policies,CN=System,DC=test;0]"),
       ("OU=a,DC=test",
         "[LDAP://CN={A1},CN=Policies,CN=System,DC=test;2]"
           ++ "[LDAP://CN={B2},CN=Policies,CN=System,DC=test;0]"),
       ("OU=a,DC=test", "[LDAP://CN={A1},CN=Policies,CN=System,DC=test;2]")] := by
  decide

/-- C4. `console_policy_drop` is `console_policy_add_link` called with the
one-element policy list holding the DN of `target`, and with the DNs of the
dropped items that are OUs, in their order in `dropped_list`; items that are
not OUs contribute nothing. -/
theorem console_policy_drop_calls_add_link {σ Obj G : Type} (ad : AdInterface σ Obj)
    (ops : AdObjectOps Obj) (gp : GplinkOps G) (K : AdDefines)
    (console_object_is_ou : QModelIndex → Bool) (ad_failed : Bool)
    (dropped_list : List QModelIndex) (target : QModelIndex) (st : σ) :
    console_policy_drop ad ops gp K console_object_is_ou ad_failed dropped_list target st =
      console_policy_add_link ad ops gp K ad_failed
        [(target.data .PolicyRole_DN).toString]
        ((dropped_list.filter console_object_is_ou).map
          (fun index => (index.data .ObjectRole_DN).toString))
        st := by
  simp [console_policy_drop, console_policy_drop_lists, drop_ou_list_foldl]

/-- C7. `console_policy_actions_get_state` adds to `visible_actions` exactly
`PolicyCreate` for a `PolicyRoot` item, `PolicyAddLink`, `PolicyRename` and
`PolicyDelete` for a `Policy` item under single selection, `PolicyDelete` for a
`Policy` item under multiple selection, and nothing for an item of another
type; `PolicyEdit` is in the result only if it was there before, what was
visible stays visible, and `disabled_actions` is returned as it came. -/
theorem console_policy_actions_get_state_spec (T : ItemTypes)
    (hT : T.ItemType_PolicyRoot ≠ T.ItemType_Policy) (index : QModelIndex)
    (single_selection : Bool) (visible_actions disabled_actions : Finset ConsoleAction) :
    (console_policy_actions_get_state T index single_selection
        visible_actions disabled_actions).1 =
      visible_actions ∪
        (if (index.data .ConsoleRole_Type).toInt = T.ItemType_PolicyRoot then
          {ConsoleAction.ConsoleAction_PolicyCreate}
        else if (index.data .ConsoleRole_Type).toInt = T.ItemType_Policy then
          (if single_selection then
            {ConsoleAction.ConsoleAction_PolicyAddLink,
             ConsoleAction.ConsoleAction_PolicyRename,
             ConsoleAction.ConsoleAction_PolicyDelete}
          else {ConsoleAction.ConsoleAction_PolicyDelete})
        else ∅)
    ∧ (ConsoleAction.ConsoleAction_PolicyEdit ∈
        (console_policy_actions_get_state T index single_selection
          visible_actions disabled_actions).1 ↔
        ConsoleAction.ConsoleAction_PolicyEdit ∈ visible_actions)
    ∧ visible_actions ⊆
        (console_policy_actions_get_state T index single_selection
          visible_actions disabled_actions).1
    ∧ (console_policy_actions_get_state T index single_selection
        visible_actions disabled_actions).2 = disabled_actions := by
  have hmain : (console_policy_actions_get_state T index single_selection
        visible_actions disabled_actions).1 =
      visible_actions ∪
        (if (index.data .ConsoleRole_Type).toInt = T.ItemType_PolicyRoot then
          {ConsoleAction.ConsoleAction_PolicyCreate}
        else if (index.data .ConsoleRole_Type).toInt = T.ItemType_Policy then
          (if single_selection then
            {ConsoleAction.ConsoleAction_PolicyAddLink,
             ConsoleAction.ConsoleAction_PolicyRename,
             ConsoleAction.ConsoleAction_PolicyDelete}
          else {ConsoleAction.ConsoleAction_PolicyDelete})
        else ∅) := by
    simp only [console_policy_actions_get_state]
    by_cases h1 : (index.data .ConsoleRole_Type).toInt = T.ItemType_PolicyRoot
    · rw [h1]
      rw [if_pos rfl, if_neg hT, if_pos rfl]
      ext a; simp only [Finset.mem_insert, Finset.mem_union, Finset.mem_singleton]; tauto
    · by_cases h2 : (index.data .ConsoleRole_Type).toInt = T.ItemType_Policy
      · rw [if_neg h1, if_pos h2, if_neg h1, if_pos h2]
        cases single_selection
        · ext a
          simp only [Finset.mem_insert, Finset.mem_union, Finset.mem_singleton,
            Bool.false_eq_true, if_false]
          tauto
        · ext a
          simp only [Finset.mem_insert, Finset.mem_union, Finset.mem_singleton, if_true]
          tauto
      · rw [if_neg h1, if_neg h2, if_neg h1, if_neg h2]
        simp
  refine ⟨hmain, ?_, ?_, rfl⟩
  · rw [hmain]
    split_ifs <;> simp
  · rw [hmain]
    exact Finset.subset_union_left

/-- C7 at a policy item under single selection, with nothing visible before. -/
theorem console_policy_actions_get_state_spec_witness :
    sample_item_types.ItemType_PolicyRoot ≠ sample_item_types.ItemType_Policy
    ∧ (console_policy_actions_get_state sample_item_types sample_policy_index true ∅ ∅).1 =
      {ConsoleAction.ConsoleAction_PolicyAddLink,
       ConsoleAction.ConsoleAction_PolicyRename,
       ConsoleAction.ConsoleAction_PolicyDelete} := by
  refine ⟨by decide, ?_⟩
  have h := (console_policy_actions_get_state_spec sample_item_types (by decide)
    sample_policy_index true ∅ ∅).1
  rw [h]
  decide


/-- The log of `policy_action_delete` on the sample directory when `gpo_delete`
removes the object and reports failure: the item is removed from the console. -/
theorem policy_action_delete_sample_log :
    (policy_action_delete sample_ad_delete_fails sample_ops true false [sample_policy_index]
        [("CN={A1},CN=Policies,CN=System,DC=test", "")]).2 =
      [Effect.show_busy_indicator,
       Effect.ad_gpo_delete "CN={A1},CN=Policies,CN=System,DC=test",
       Effect.ad_search_object "CN={A1},CN=Policies,CN=System,DC=test",
       Effect.console_delete_item sample_policy_index,
       Effect.hide_busy_indicator,
       Effect.display_ad_messages] := by
  decide

/-! ## Statements about the gPLink codec -/

/-- C2. A well-formed gPLink string, that is the string `s` that writes an
ordered list `links` of (policy-object-DN, flags) pairs in the attribute's
syntax, where no DN holds the delimiter `;`, parses to exactly that list
(same links, same order, same flags) and serialises back to `s`. -/
theorem Gplink.to_string_parse_roundtrip (s : String) (links : List (String × Nat))
    (hdn : ∀ l ∈ links, ';' ∉ l.1.data)
    (hs : s = Gplink.to_string { links := links }) :
    (Gplink.parse s).links = links ∧ Gplink.to_string (Gplink.parse s) = s := by
  subst hs
  rw [Gplink.parse_to_string { links := links } hdn]
  exact ⟨rfl, rfl⟩

/-- C2 at a string of two links, the second one with a flag bit set. -/
theorem Gplink.to_string_parse_roundtrip_witness :
    (Gplink.parse
        ("[LDAP://CN={A1},CN=Policies,CN=System,DC=test;0]"
          ++ "[LDAP://CN={B2},CN=Policies,CN=System,DC=test;2]")).links = sample_links
    ∧ Gplink.to_string (Gplink.parse
        ("[LDAP://CN={A1},CN=Policies,CN=System,DC=test;0]"
          ++ "[LDAP://CN={B2},CN=Policies,CN=System,DC=test;2]"))
      = "[LDAP://CN={A1},CN=Policies,CN=System,DC=test;0]"
          ++ "[LDAP://CN={B2},CN=Policies,CN=System,DC=test;2]" :=
  Gplink.to_string_parse_roundtrip _ sample_links (by decide) (by decide)

/-- C3. For the `i`-th OU that `console_policy_add_link` processes, with the
codec above, the value of the `i`-th replace call parses to a link list that
contains the links parsed from the gPLink string read for that OU, in the same
relative order and each with its flags: adding links removes, reorders and
re-flags none of the links that were there. -/
theorem console_policy_add_link_keeps_links {σ Obj : Type} (ad : AdInterface σ Obj)
    (ops : AdObjectOps Obj) (K : AdDefines) (policy_list ou_list : List String) (st : σ)
    (i : Nat) (hi : i < ou_list.length) :
    ∃ value,
      (replace_calls
        (console_policy_add_link ad ops Gplink.ops K false policy_list ou_list st).2)[i]?
        = some (ou_list.getD i "", K.ATTRIBUTE_GPLINK, value)
      ∧ List.Sublist
          (Gplink.parse
            (gplink_read ad ops K
              (console_policy_add_link_loop ad ops Gplink.ops K policy_list
                (ou_list.take i) st).1
              (ou_list.getD i ""))).links
          (Gplink.parse value).links := by
  have hlog : replace_calls
      (console_policy_add_link ad ops Gplink.ops K false policy_list ou_list st).2 =
      replace_calls
        (console_policy_add_link_loop ad ops Gplink.ops K policy_list ou_list st).2 := by
    simp [console_policy_add_link, replace_calls_append, replace_calls]
  rw [hlog, replace_calls_loop]
  refine ⟨Gplink.to_string (policy_list.foldl Gplink.add (Gplink.parse
    (gplink_read ad ops K
      (console_policy_add_link_loop ad ops Gplink.ops K policy_list (ou_list.take i) st).1
      (ou_list.getD i "")))), ?_, ?_⟩
  · rw [List.getElem?_map, List.getElem?_range hi]
    rfl
  · generalize gplink_read ad ops K _ _ = read
    have hdn : ∀ l ∈ (Gplink.parse read).links, ';' ∉ l.1.data :=
      Gplink.parse_links_dn _ _
    have hfold := Gplink.foldl_add_links (Gplink.parse read) policy_list
    obtain ⟨more, hmore⟩ := Gplink.parse_to_string_append (Gplink.parse read).links
      (policy_list.map (fun p => (p, 0))) hdn
    have e : List.foldl Gplink.add (Gplink.parse read) policy_list =
        { links := (Gplink.parse read).links ++ policy_list.map (fun p => (p, 0)) } := by
      cases h : List.foldl Gplink.add (Gplink.parse read) policy_list
      rw [h] at hfold
      simp only at hfold
      rw [hfold]
    rw [e, hmore]
    exact List.sublist_append_left _ _

/-- C3 at the sample directory: one OU that is linked to one policy with
flags 2, and one policy to add. -/
theorem console_policy_add_link_keeps_links_witness :
    ∃ value,
      (replace_calls
        (console_policy_add_link sample_ad sample_ops Gplink.ops sample_defines false
          ["CN={B2},CN=Policies,CN=System,DC=test"] ["OU=a,DC=test"] sample_state).2)[0]?
        = some ((["OU=a,DC=test"] : List String).getD 0 "",
            sample_defines.ATTRIBUTE_GPLINK, value)
      ∧ List.Sublist
          (Gplink.parse
            (gplink_read sample_ad sample_ops sample_defines
              (console_policy_add_link_loop sample_ad sample_ops Gplink.ops sample_defines
                ["CN={B2},CN=Policies,CN=System,DC=test"]
                ((["OU=a,DC=test"] : List String).take 0) sample_state).1
              ((["OU=a,DC=test"] : List String).getD 0 ""))).links
          (Gplink.parse value).links :=
  console_policy_add_link_keeps_links sample_ad sample_ops sample_defines
    ["CN={B2},CN=Policies,CN=System,DC=test"] ["OU=a,DC=test"] sample_state 0 (by decide)

/-- The log of `console_policy_add_link` on the sample directory: the link
that was there keeps its place and its flags, the new one follows it. -/
theorem console_policy_add_link_sample_log :
    (console_policy_add_link sample_ad sample_ops Gplink.ops sample_defines false
        ["CN={B2},CN=Policies,CN=System,DC=test"] ["OU=a,DC=test"] sample_state).2 =
      [Effect.show_busy_indicator,
       Effect.ad_search "OU=a,DC=test" SearchScope.SearchScope_Object "" ["gPLink"],
       Effect.ad_attribute_replace_string "OU=a,DC=test" "gPLink"
         ("[LDAP://CN={A1},CN=Policies,CN=System,DC=test;2]"
           ++ "[LDAP://CN={B2},CN=Policies,CN=System,DC=test;0]"),
       Effect.policy_results_widget_update,
       Effect.hide_busy_indicator,
       Effect.display_ad_messages] := by
  decide

/-! ## Statements about `object_context_menu.cpp` -/

/-- C6. In the menu built for the object found for `dn`, each of Move, Delete
and Rename is disabled exactly when the object contains the systemFlags
attribute and the bit of that action (CannotMove, CannotDelete, CannotRename)
is set; so each bit decides its own action only, and for an object without
systemFlags all three are enabled. -/
theorem object_context_menu_system_flags {σ Obj : Type} (ad : AdInterface σ Obj)
    (ops : AdObjectOps Obj) (K : AdDefines) (texts : MenuTexts) (st : σ) (dn : String) :
    ((ObjectContextMenu.create ad ops K texts st dn).2.1.move_action.enabled = false ↔
        (ops.contains (ad.search_object st dn).2 K.ATTRIBUTE_SYSTEM_FLAGS = true
          ∧ ops.get_system_flag (ad.search_object st dn).2
              SystemFlagsBit.SystemFlagsBit_CannotMove = true))
    ∧ ((ObjectContextMenu.create ad ops K texts st dn).2.1.delete_action.enabled = false ↔
        (ops.contains (ad.search_object st dn).2 K.ATTRIBUTE_SYSTEM_FLAGS = true
          ∧ ops.get_system_flag (ad.search_object st dn).2
              SystemFlagsBit.SystemFlagsBit_CannotDelete = true))
    ∧ ((ObjectContextMenu.create ad ops K texts st dn).2.1.rename_action.enabled = false ↔
        (ops.contains (ad.search_object st dn).2 K.ATTRIBUTE_SYSTEM_FLAGS = true
          ∧ ops.get_system_flag (ad.search_object st dn).2
              SystemFlagsBit.SystemFlagsBit_CannotRename = true))
    ∧ (ops.contains (ad.search_object st dn).2 K.ATTRIBUTE_SYSTEM_FLAGS = true
        ∨ ((ObjectContextMenu.create ad ops K texts st dn).2.1.move_action.enabled = true
          ∧ (ObjectContextMenu.create ad ops K texts st dn).2.1.delete_action.enabled = true
          ∧ (ObjectContextMenu.create ad ops K texts st dn).2.1.rename_action.enabled
              = true)) := by
  simp only [ObjectContextMenu.create, ObjectContextMenu.build]
  cases hc : ops.contains (ad.search_object st dn).2 K.ATTRIBUTE_SYSTEM_FLAGS
  · simp
  · cases hm : ops.get_system_flag (ad.search_object st dn).2
        SystemFlagsBit.SystemFlagsBit_CannotMove <;>
    cases hd : ops.get_system_flag (ad.search_object st dn).2
        SystemFlagsBit.SystemFlagsBit_CannotDelete <;>
    cases hr : ops.get_system_flag (ad.search_object st dn).2
        SystemFlagsBit.SystemFlagsBit_CannotRename <;>
    simp [QAction.setEnabled]

/-- C8. The handler of `connect_view`, for a request at a position whose DN is
empty, constructs no menu (makes no search), executes none and leaves the
connection as it was; for a non-empty DN it constructs one menu, for that DN,
and executes that one menu at the position. -/
theorem connect_view_handler_spec {σ Obj : Type} (ad : AdInterface σ Obj)
    (ops : AdObjectOps Obj) (K : AdDefines) (texts : MenuTexts)
    (get_dn_from_pos : QPoint → Int → String) (dn_column : Int) (pos : QPoint) (st : σ) :
    if get_dn_from_pos pos dn_column = "" then
      connect_view_handler ad ops K texts get_dn_from_pos dn_column pos st = (st, [])
    else
      menus_constructed
          (connect_view_handler ad ops K texts get_dn_from_pos dn_column pos st).2
        = [get_dn_from_pos pos dn_column]
      ∧ menus_executed
          (connect_view_handler ad ops K texts get_dn_from_pos dn_column pos st).2
        = [(ObjectContextMenu.create ad ops K texts st (get_dn_from_pos pos dn_column)).2.1]
      ∧ (connect_view_handler ad ops K texts get_dn_from_pos dn_column pos st).2
        = [MenuEffect.ad_search_object (get_dn_from_pos pos dn_column),
           MenuEffect.exec_menu_from_view
             (ObjectContextMenu.create ad ops K texts st (get_dn_from_pos pos dn_column)).2.1
             pos] := by
  split
  · rename_i h
    simp [connect_view_handler, h]
  · rename_i h
    simp [connect_view_handler, h, ObjectContextMenu.create, menus_constructed,
      menus_executed]

end Admc
